import Mathlib

/-!
Shallow embedding of the Case Activity & Notification Orchestration subsystem
of the law-firm backend, together with theorems settling the specification
claims about it.  Definitions follow the TypeScript/SQL source files:
`emailNotificationService` (retrying mail delivery), `caseService` /
`caseRepository` (case mutations and the audit-event trigger),
`inactivityCheckJob` and `weeklySummaryJob` (batch jobs),
`notificationService` (in-app notifications and message routing),
`emailTemplateService.renderTemplate` (template substitution), and
`intakeService.generateCaseNumber` (case-number allocation).
-/

namespace LawFirm

/-! ## DeliveryEngine: emailNotificationService.sendEmail -/

/-- Models `RETRY_CONFIG` from emailNotificationService. -/
structure RetryConfig where
  maxRetries : Nat
  baseDelayMs : Nat
  maxDelayMs : Nat
deriving Repr, DecidableEq

def RETRY_CONFIG : RetryConfig := { maxRetries := 3, baseDelayMs := 1000, maxDelayMs := 10000 }

/-- Models `getRetryDelay(attempt)`; the jitter (`Math.random() * 1000`) is an explicit
input, a natural number strictly below 1000. -/
def getRetryDelay (attempt jitter : Nat) : Nat :=
  min (RETRY_CONFIG.baseDelayMs * 2 ^ attempt + jitter) RETRY_CONFIG.maxDelayMs

/-- The error object handed back (or thrown) by the Resend transport, as the
code observes it: an optional HTTP status code and an optional string code. -/
structure ApiError where
  statusCode : Option Nat
  code : Option String
deriving Repr, DecidableEq

/-- Models `error?.code === 'ECONNRESET' || error?.code === 'ETIMEDOUT' || error?.code === 'ENOTFOUND'`. -/
def isNetworkCode : Option String → Bool
  | some c => c == "ECONNRESET" || c == "ETIMEDOUT" || c == "ENOTFOUND"
  | none => false

/-- Models `emailNotificationService.isRetryableError`.  `if (error?.statusCode)` is a
JavaScript truthiness test, so a status of `0` falls through to the
network-code check exactly as an absent status does. -/
def isRetryableError (e : ApiError) : Bool :=
  match e.statusCode with
  | some s => if s ≠ 0 then s == 429 || decide (500 ≤ s) else isNetworkCode e.code
  | none => isNetworkCode e.code

/-- One transport interaction: the awaited call resolves with no error,
resolves with `{ error }`, or rejects (throws). -/
inductive SendOutcome where
  | ok : SendOutcome
  | err : ApiError → SendOutcome
  | thrown : ApiError → SendOutcome
deriving Repr, DecidableEq

/-- What a run of `sendEmail` did: the boolean it returned, how many transport
attempts it made, and the backoff delays it waited (in order). -/
structure SendResult where
  ok : Bool
  attempts : Nat
  delays : List Nat
deriving Repr, DecidableEq

/-- The body of the `for (attempt = 0; attempt <= maxRetries; attempt++)` loop
of `sendEmail`, starting at `attempt` with `fuel` iterations remaining.  Every
iteration at `attempt = maxRetries` returns, so the fuel-exhausted branch is
dead code for `fuel = maxRetries + 1 - attempt` (mirroring the unreachable
trailing `return false`). -/
def sendAttempts (transport : Nat → SendOutcome) (jitter : Nat → Nat) :
    Nat → Nat → SendResult
  | _, 0 => { ok := false, attempts := 0, delays := [] }
  | attempt, fuel + 1 =>
    match transport attempt with
    | .ok => { ok := true, attempts := 1, delays := [] }
    | .err e =>
      if !isRetryableError e || attempt == RETRY_CONFIG.maxRetries then
        { ok := false, attempts := 1, delays := [] }
      else
        let d := getRetryDelay attempt (jitter attempt)
        let r := sendAttempts transport jitter (attempt + 1) fuel
        { ok := r.ok, attempts := r.attempts + 1, delays := d :: r.delays }
    | .thrown _ =>
      if attempt == RETRY_CONFIG.maxRetries then
        { ok := false, attempts := 1, delays := [] }
      else
        let d := getRetryDelay attempt (jitter attempt)
        let r := sendAttempts transport jitter (attempt + 1) fuel
        { ok := r.ok, attempts := r.attempts + 1, delays := d :: r.delays }

/-- Models `emailNotificationService.sendEmail`: when no API key is configured the
function returns `false` without touching the transport; otherwise it runs the
retry loop from attempt 0. -/
def sendEmail (apiKeyConfigured : Bool) (transport : Nat → SendOutcome)
    (jitter : Nat → Nat) : SendResult :=
  if !apiKeyConfigured then { ok := false, attempts := 0, delays := [] }
  else sendAttempts transport jitter 0 (RETRY_CONFIG.maxRetries + 1)

end LawFirm

namespace LawFirm

theorem sendAttempts_attempts_le (transport : Nat → SendOutcome) (jitter : Nat → Nat) :
    ∀ fuel attempt, (sendAttempts transport jitter attempt fuel).attempts ≤ fuel := by
  intro fuel
  induction fuel with
  | zero => intro attempt; simp [sendAttempts]
  | succ n ih =>
    intro attempt
    simp only [sendAttempts]
    split
    · simp
    · split
      · simp
      · have := ih (attempt + 1)
        dsimp only
        omega
    · split
      · simp
      · have := ih (attempt + 1)
        dsimp only
        omega

theorem sendAttempts_delays_length (transport : Nat → SendOutcome) (jitter : Nat → Nat) :
    ∀ fuel attempt, attempt ≤ RETRY_CONFIG.maxRetries →
      (sendAttempts transport jitter attempt fuel).delays.length ≤
        RETRY_CONFIG.maxRetries - attempt := by
  intro fuel
  induction fuel with
  | zero => intro attempt _; simp [sendAttempts]
  | succ n ih =>
    intro attempt hle
    simp only [sendAttempts]
    cases htr : transport attempt with
    | ok => simp
    | err e =>
      by_cases hr : (!isRetryableError e || attempt == RETRY_CONFIG.maxRetries) = true
      · simp [hr]
      · simp only [hr, Bool.false_eq_true, if_false]
        have hne : attempt ≠ RETRY_CONFIG.maxRetries := by
          intro hcontra
          simp [hcontra] at hr
        have := ih (attempt + 1) (by omega)
        simp only [List.length_cons]
        omega
    | thrown e =>
      by_cases hr : (attempt == RETRY_CONFIG.maxRetries) = true
      · simp [hr]
      · simp only [hr, Bool.false_eq_true, if_false]
        have hne : attempt ≠ RETRY_CONFIG.maxRetries := by simpa using hr
        have := ih (attempt + 1) (by omega)
        simp only [List.length_cons]
        omega

theorem sendAttempts_delays_get (transport : Nat → SendOutcome) (jitter : Nat → Nat) :
    ∀ fuel attempt i d,
      (sendAttempts transport jitter attempt fuel).delays.get? i = some d →
      d = getRetryDelay (attempt + i) (jitter (attempt + i)) := by
  intro fuel
  induction fuel with
  | zero => intro attempt i d h; simp [sendAttempts] at h
  | succ n ih =>
    intro attempt i d
    simp only [sendAttempts]
    cases htr : transport attempt with
    | ok => intro h; simp at h
    | err e =>
      by_cases hr : (!isRetryableError e || attempt == RETRY_CONFIG.maxRetries) = true
      · simp only [hr, if_true]; intro h; simp at h
      · simp only [hr, Bool.false_eq_true, if_false]
        match i with
        | 0 =>
          intro h
          simp only [List.get?_cons_zero, Option.some.injEq] at h
          simp only [Nat.add_zero]
          omega
        | j + 1 =>
          intro h
          simp only [List.get?_cons_succ] at h
          have := ih (attempt + 1) j d h
          have harith : attempt + 1 + j = attempt + (j + 1) := by omega
          rw [← harith]
          exact this
    | thrown e =>
      by_cases hr : (attempt == RETRY_CONFIG.maxRetries) = true
      · simp only [hr, if_true]; intro h; simp at h
      · simp only [hr, Bool.false_eq_true, if_false]
        match i with
        | 0 =>
          intro h
          simp only [List.get?_cons_zero, Option.some.injEq] at h
          simp only [Nat.add_zero]
          omega
        | j + 1 =>
          intro h
          simp only [List.get?_cons_succ] at h
          have := ih (attempt + 1) j d h
          have harith : attempt + 1 + j = attempt + (j + 1) := by omega
          rw [← harith]
          exact this

theorem sendAttempts_never_ok (transport : Nat → SendOutcome) (jitter : Nat → Nat)
    (hnone : ∀ k, transport k ≠ SendOutcome.ok) :
    ∀ fuel attempt, (sendAttempts transport jitter attempt fuel).ok = false := by
  intro fuel
  induction fuel with
  | zero => intro attempt; simp [sendAttempts]
  | succ n ih =>
    intro attempt
    simp only [sendAttempts]
    cases htr : transport attempt with
    | ok => exact absurd htr (hnone attempt)
    | err e =>
      by_cases hr : (!isRetryableError e || attempt == RETRY_CONFIG.maxRetries) = true
      · simp [hr]
      · simp only [hr, if_false]
        simpa using ih (attempt + 1)
    | thrown e =>
      by_cases hr : (attempt == RETRY_CONFIG.maxRetries) = true
      · simp [hr]
      · simp only [hr, if_false]
        simpa using ih (attempt + 1)

theorem getRetryDelay_lower (k jitter : Nat) (hk : k ≤ 3) :
    RETRY_CONFIG.baseDelayMs * 2 ^ k ≤ getRetryDelay k jitter := by
  unfold getRetryDelay
  have hcap : RETRY_CONFIG.baseDelayMs * 2 ^ k ≤ RETRY_CONFIG.maxDelayMs := by
    interval_cases k <;> simp [RETRY_CONFIG]
  omega

theorem getRetryDelay_upper (k jitter : Nat) :
    getRetryDelay k jitter ≤ RETRY_CONFIG.maxDelayMs + 1000 := by
  unfold getRetryDelay
  omega

theorem sendAttempts_attempts_pos (transport : Nat → SendOutcome) (jitter : Nat → Nat)
    (fuel attempt : Nat) :
    1 ≤ (sendAttempts transport jitter attempt (fuel + 1)).attempts := by
  simp only [sendAttempts]
  cases htr : transport attempt with
  | ok => simp
  | err e =>
    by_cases hr : (!isRetryableError e || attempt == RETRY_CONFIG.maxRetries) = true
    · simp [hr]
    · simp only [hr, Bool.false_eq_true, if_false]
      omega
  | thrown e =>
    by_cases hr : (attempt == RETRY_CONFIG.maxRetries) = true
    · simp [hr]
    · simp only [hr, Bool.false_eq_true, if_false]
      omega

end LawFirm

namespace LawFirm

/-- C2: for every message, at most `maxRetries + 1 = 4` transport attempts are
made; the delay before retry `k` equals
`min(maxDelayMs, baseDelayMs * 2^k + jitter)` with the jitter below 1000 ms and
defaults `baseDelayMs = 1000`, `maxDelayMs = 10000`, `maxRetries = 3`; every
retry delay lies within `[baseDelay * 2^k, maxDelay + 1000]`. -/
theorem C2_retry_backoff_bounds (apiKeyConfigured : Bool)
    (transport : Nat → SendOutcome) (jitter : Nat → Nat)
    (hj : ∀ k, jitter k < 1000) :
    RETRY_CONFIG.maxRetries = 3 ∧ RETRY_CONFIG.baseDelayMs = 1000 ∧
    RETRY_CONFIG.maxDelayMs = 10000 ∧
    (sendEmail apiKeyConfigured transport jitter).attempts ≤ RETRY_CONFIG.maxRetries + 1 ∧
    ∀ k d, (sendEmail apiKeyConfigured transport jitter).delays.get? k = some d →
      d = min RETRY_CONFIG.maxDelayMs (RETRY_CONFIG.baseDelayMs * 2 ^ k + jitter k) ∧
      RETRY_CONFIG.baseDelayMs * 2 ^ k ≤ d ∧
      d ≤ RETRY_CONFIG.maxDelayMs + 1000 := by
  refine ⟨rfl, rfl, rfl, ?_, ?_⟩
  · cases apiKeyConfigured with
    | false => simp [sendEmail]
    | true =>
      simpa [sendEmail] using
        sendAttempts_attempts_le transport jitter (RETRY_CONFIG.maxRetries + 1) 0
  · intro k d hd
    cases apiKeyConfigured with
    | false => simp [sendEmail] at hd
    | true =>
      simp only [sendEmail, Bool.not_true, Bool.false_eq_true, if_false] at hd
      have hk3 : k ≤ 3 := by
        have hlen := sendAttempts_delays_length transport jitter
          (RETRY_CONFIG.maxRetries + 1) 0 (by simp [RETRY_CONFIG])
        have hklt : k < (sendAttempts transport jitter 0 (RETRY_CONFIG.maxRetries + 1)).delays.length :=
          List.get?_eq_some.mp hd |>.1
        simp only [Nat.sub_zero] at hlen
        have h3 : RETRY_CONFIG.maxRetries = 3 := rfl
        omega
      have hval := sendAttempts_delays_get transport jitter (RETRY_CONFIG.maxRetries + 1) 0 k d hd
      simp only [Nat.zero_add] at hval
      refine ⟨?_, ?_, ?_⟩
      · rw [hval]; unfold getRetryDelay; omega
      · rw [hval]; exact getRetryDelay_lower k (jitter k) hk3
      · rw [hval]; exact getRetryDelay_upper k (jitter k)

theorem C2_retry_backoff_bounds_witness :
    (sendEmail true (fun _ => SendOutcome.ok) (fun _ => 500)).attempts ≤
      RETRY_CONFIG.maxRetries + 1 :=
  (C2_retry_backoff_bounds true (fun _ => SendOutcome.ok) (fun _ => 500)
      (fun _ => by norm_num)).2.2.2.1

end LawFirm

namespace LawFirm

/-- A transport whose first attempt throws an exception carrying a
non-retryable HTTP 400 classification and whose second attempt succeeds. -/
def thrown400Transport : Nat → SendOutcome :=
  fun k => if k = 0 then SendOutcome.thrown { statusCode := some 400, code := none }
           else SendOutcome.ok

/-- C3 counterexample: a send failure carrying HTTP status 400 is classified
non-retryable, yet when it reaches `sendEmail` through the thrown-exception
channel the code retries anyway: two attempts are made and the call succeeds,
where the claim requires an immediate `false` with no retry. -/
theorem C3_counterexample_thrown_4xx_is_retried :
    isRetryableError { statusCode := some 400, code := none } = false ∧
    (sendEmail true thrown400Transport (fun _ => 0)).attempts = 2 ∧
    (sendEmail true thrown400Transport (fun _ => 0)).ok = true := by
  refine ⟨by decide, ?_, ?_⟩ <;> rfl

/-- C3 (amended): errors returned by the transport are classified, and a retry
occurs exactly when the classification is retryable (429 / ≥500 / connection
code) and the retry budget is not exhausted; any other returned 4xx error gives
an immediate `false` with no further attempt; a thrown exception is retried
unconditionally (up to the budget) without classification; and with no API
credential `sendEmail` makes zero attempts and returns `false`. -/
theorem C3_error_classification (transport : Nat → SendOutcome) (jitter : Nat → Nat) :
    (sendEmail false transport jitter = { ok := false, attempts := 0, delays := [] }) ∧
    (∀ e attempt fuel, transport attempt = SendOutcome.err e →
      isRetryableError e = false →
      sendAttempts transport jitter attempt (fuel + 1) =
        { ok := false, attempts := 1, delays := [] }) ∧
    (∀ e attempt fuel, transport attempt = SendOutcome.err e →
      isRetryableError e = true → attempt ≠ RETRY_CONFIG.maxRetries →
      2 ≤ (sendAttempts transport jitter attempt (fuel + 2)).attempts) ∧
    (∀ e attempt fuel, transport attempt = SendOutcome.thrown e →
      attempt ≠ RETRY_CONFIG.maxRetries →
      2 ≤ (sendAttempts transport jitter attempt (fuel + 2)).attempts) ∧
    (∀ e, transport 0 = SendOutcome.err e → isRetryableError e = false →
      sendEmail true transport jitter = { ok := false, attempts := 1, delays := [] }) := by
  refine ⟨rfl, ?_, ?_, ?_, ?_⟩
  · intro e attempt fuel htr hnr
    simp [sendAttempts, htr, hnr]
  · intro e attempt fuel htr hr hne
    have hpos := sendAttempts_attempts_pos transport jitter fuel (attempt + 1)
    simp only [sendAttempts] at hpos ⊢
    simp only [htr, hr]
    have hbe : (attempt == RETRY_CONFIG.maxRetries) = false := by
      simpa using hne
    simp only [hbe, Bool.not_true, Bool.false_or, Bool.false_eq_true, if_false]
    omega
  · intro e attempt fuel htr hne
    have hpos := sendAttempts_attempts_pos transport jitter fuel (attempt + 1)
    simp only [sendAttempts] at hpos ⊢
    simp only [htr]
    have hbe : (attempt == RETRY_CONFIG.maxRetries) = false := by
      simpa using hne
    simp only [hbe, Bool.false_eq_true, if_false]
    omega
  · intro e htr hnr
    have : sendAttempts transport jitter 0 (RETRY_CONFIG.maxRetries + 1) =
        { ok := false, attempts := 1, delays := [] } := by
      simp [sendAttempts, htr, hnr]
    simpa [sendEmail] using this

theorem C3_error_classification_witness :
    ((fun _ : Nat => SendOutcome.err { statusCode := some 400, code := none }) 0 =
      SendOutcome.err { statusCode := some 400, code := none }) ∧
    isRetryableError { statusCode := some 400, code := none } = false ∧
    sendEmail true (fun _ => SendOutcome.err { statusCode := some 400, code := none })
      (fun _ => 0) = { ok := false, attempts := 1, delays := [] } :=
  ⟨rfl, by decide,
   (C3_error_classification
      (fun _ => SendOutcome.err { statusCode := some 400, code := none })
      (fun _ => 0)).2.2.2.2 _ rfl (by decide)⟩

end LawFirm

namespace LawFirm

/-! ## Data model (schema 001_initial_schema + 002_notifications)

TypeScript enums are strings at runtime, so event and notification types are
embedded as strings; `CaseEventType.DEADLINE_REMINDER`, referenced by
`inactivityCheckJob` but absent from the `CaseEventType` enum, evaluates to
JavaScript `undefined` — and since `case_events.event_type` is a `NOT NULL`
enum column, an insert carrying it is rejected by the database (see
`processInactiveCase`). -/

inductive CaseStatus where
  | new | in_review | active | pending_client | pending_documents
  | in_progress | awaiting_response | resolved | closed | archived
deriving Repr, DecidableEq

/-- The string value of a `CaseStatus`, as stored in the database. -/
def CaseStatus.str : CaseStatus → String
  | .new => "new"
  | .in_review => "in_review"
  | .active => "active"
  | .pending_client => "pending_client"
  | .pending_documents => "pending_documents"
  | .in_progress => "in_progress"
  | .awaiting_response => "awaiting_response"
  | .resolved => "resolved"
  | .closed => "closed"
  | .archived => "archived"

structure CaseRow where
  id : Nat
  case_number : String
  client_id : Nat
  lawyer_id : Option Nat
  title : String
  description : Option String
  status : CaseStatus
  priority : Nat
  case_type : Option String
  closed_at : Option Nat
  last_activity_at : Nat
  last_inactivity_notification : Option Nat
  created_at : Nat
deriving Repr, DecidableEq

structure CaseEventRow where
  case_id : Nat
  event_type : Option String
  actor_id : Option Nat
  description : String
  metadata : List (String × String)
  created_at : Nat
deriving Repr, DecidableEq

structure NotificationRow where
  id : Nat
  user_id : Nat
  ntype : String
  title : String
  message : String
  case_id : Option Nat
  is_read : Bool
  created_at : Nat
  read_at : Option Nat
deriving Repr, DecidableEq

structure ClientRow where
  id : Nat
  user_id : Nat
deriving Repr, DecidableEq

structure LawyerRow where
  id : Nat
  user_id : Nat
  is_available : Bool
deriving Repr, DecidableEq

structure UserRow where
  id : Nat
  email : String
  first_name : String
  last_name : String
  is_active : Bool
deriving Repr, DecidableEq

structure Db where
  cases : List CaseRow
  case_events : List CaseEventRow
  notifications : List NotificationRow
  clients : List ClientRow
  lawyers : List LawyerRow
  users : List UserRow
  case_number_seq : Nat
deriving Repr, DecidableEq

/-- One day in milliseconds (`INTERVAL '1 day'`). -/
def dayMs : Nat := 86400000

/-- Trigger `update_case_last_activity`: AFTER INSERT ON case_events,
`UPDATE cases SET last_activity_at = CURRENT_TIMESTAMP WHERE id = NEW.case_id`. -/
def bumpLastActivity (cases : List CaseRow) (caseId now : Nat) : List CaseRow :=
  cases.map fun c => if c.id = caseId then { c with last_activity_at := now } else c

/-- Models `caseEventRepository.create` (INSERT INTO case_events, `created_at`
defaulting to `CURRENT_TIMESTAMP`), together with the AFTER INSERT trigger. -/
def caseEventCreate (db : Db) (now : Nat) (case_id : Nat) (event_type : Option String)
    (actor_id : Option Nat) (description : String)
    (metadata : List (String × String)) : Db :=
  { db with
    case_events := db.case_events ++
      [{ case_id := case_id, event_type := event_type, actor_id := actor_id,
         description := description, metadata := metadata, created_at := now }],
    cases := bumpLastActivity db.cases case_id now }

/-- PostgreSQL `lpad(s, w, '0')`: pads on the left, truncating on the right
when `s` is already longer than `w`. -/
def lpad0 (s : String) (w : Nat) : String :=
  if w ≤ s.length then ⟨s.data.take w⟩
  else ⟨List.replicate (w - s.length) '0' ++ s.data⟩

/-- SQL function `generate_case_number()`: `'CASE-' || year || '-' ||
lpad(nextval('case_number_seq'), 5, '0')`. -/
def sql_generate_case_number (seqVal year : Nat) : String :=
  "CASE-" ++ toString year ++ "-" ++ lpad0 (toString seqVal) 5

structure CreateCaseData where
  client_id : Nat
  lawyer_id : Option Nat
  title : String
  description : Option String
  case_type : Option String
  priority : Option Nat
deriving Repr, DecidableEq

/-- Models `data.priority || 3`: JavaScript falsy, so an explicit 0 also becomes 3. -/
def priorityOr3 : Option Nat → Nat
  | some p => if p = 0 then 3 else p
  | none => 3

/-- Models `caseRepository.createWithEvent`: inside one transaction, INSERT the case
(case number from `generate_case_number()`, status from the column default
`'new'`) and INSERT a `case_created` event; the event insert fires the
last-activity trigger.  `now` is the transaction timestamp, `newId` the fresh
row id. -/
def createWithEvent (db : Db) (now year newId : Nat) (data : CreateCaseData)
    (actorId : Option Nat) : CaseRow × Db :=
  let seqVal := db.case_number_seq + 1
  let cn := sql_generate_case_number seqVal year
  let newCase : CaseRow :=
    { id := newId, case_number := cn, client_id := data.client_id,
      lawyer_id := data.lawyer_id, title := data.title,
      description := data.description, status := CaseStatus.new,
      priority := priorityOr3 data.priority, case_type := data.case_type,
      closed_at := none, last_activity_at := now,
      last_inactivity_notification := none, created_at := now }
  let db1 := { db with cases := db.cases ++ [newCase], case_number_seq := seqVal }
  let db2 := caseEventCreate db1 now newId (some "case_created") actorId
    ("Case created: " ++ data.title)
    [("case_number", cn), ("title", data.title)]
  (newCase, db2)

structure UpdateCaseData where
  lawyer_id : Option Nat
  title : Option String
  description : Option String
  status : Option CaseStatus
  case_type : Option String
  priority : Option Nat
deriving Repr, DecidableEq

def UpdateCaseData.none_ : UpdateCaseData :=
  { lawyer_id := none, title := none, description := none, status := none,
    case_type := none, priority := none }

/-- The SET clause built by `caseRepository.update`: each defined field is
assigned, and a status of closed/archived additionally stamps
`closed_at = CURRENT_TIMESTAMP`. -/
def applyUpdate (now : Nat) (data : UpdateCaseData) (c : CaseRow) : CaseRow :=
  { c with
    lawyer_id := match data.lawyer_id with
      | some l => some l
      | none => c.lawyer_id,
    title := data.title.getD c.title,
    description := match data.description with
      | some d => some d
      | none => c.description,
    status := data.status.getD c.status,
    closed_at := match data.status with
      | some s =>
        if s = CaseStatus.closed ∨ s = CaseStatus.archived then some now
        else c.closed_at
      | none => c.closed_at,
    case_type := match data.case_type with
      | some ct => some ct
      | none => c.case_type,
    priority := data.priority.getD c.priority }

/-- Models `caseRepository.update`: UPDATE ... WHERE id = $n RETURNING *. -/
def caseRepoUpdate (db : Db) (now : Nat) (id : Nat) (data : UpdateCaseData) :
    Option CaseRow × Db :=
  let cases := db.cases.map fun c => if c.id = id then applyUpdate now data c else c
  (cases.find? (fun c => c.id == id), { db with cases := cases })

end LawFirm

namespace LawFirm

/-! ## caseService mutations

The notification dispatch of each mutation is fire-and-forget
(`promise.catch(err => logger.warn(...))`): whatever the detached pipeline
manages to do touches only the notifications table and the mail transport.
`pipelineRows` stands for the notification rows the detached task inserts
before finishing or throwing; the mutation's own result is computed
independently of it. -/

inductive SvcError where
  | notFound : String → SvcError
  | forbidden : String → SvcError
deriving Repr, DecidableEq

/-- Models `caseService.createCase`: validate client (NotFound), validate lawyer when
given (NotFound), `caseRepository.createWithEvent`, then detached
notifications. -/
def createCase (db : Db) (now year newId : Nat) (data : CreateCaseData)
    (actorId : Option Nat) (pipelineRows : List NotificationRow) :
    Except SvcError CaseRow × Db :=
  match db.clients.find? (fun c => c.id == data.client_id) with
  | none => (.error (.notFound "Client not found"), db)
  | some _ =>
    let lawyerOk : Bool :=
      match data.lawyer_id with
      | some lid => (db.lawyers.find? (fun l => l.id == lid)).isSome
      | none => true
    if lawyerOk then
      let (newCase, db1) := createWithEvent db now year newId data actorId
      (.ok newCase, { db1 with notifications := db1.notifications ++ pipelineRows })
    else
      (.error (.notFound "Lawyer not found"), db)

/-- Models `caseService.updateCase`: NotFound when the case is missing, Forbidden for
clients, `caseRepository.update`, then — only when a different status was
written — a `status_changed` event with `{old_status, new_status}` metadata
and a detached client notification.  `accessOk` is the outcome of the
`checkCaseAccess` guard (which throws Forbidden when the acting lawyer is not
on the case). -/
def updateCase (db : Db) (now caseId : Nat) (data : UpdateCaseData)
    (userId : Nat) (userIsClient accessOk : Bool)
    (pipelineRows : List NotificationRow) :
    Except SvcError CaseRow × Db :=
  match db.cases.find? (fun c => c.id == caseId) with
  | none => (.error (.notFound "Case not found"), db)
  | some caseRecord =>
    if userIsClient then
      (.error (.forbidden "Clients cannot update cases directly"), db)
    else if !accessOk then
      (.error (.forbidden "Access denied"), db)
    else
      let (upd, db1) := caseRepoUpdate db now caseId data
      match upd with
      | none => (.error (.notFound "Case not found"), db1)
      | some updatedCase =>
        match data.status with
        | some s =>
          if s ≠ caseRecord.status then
            let db2 := caseEventCreate db1 now caseId (some "status_changed")
              (some userId)
              ("Status changed from \"" ++ caseRecord.status.str ++ "\" to \"" ++ s.str ++ "\"")
              [("old_status", caseRecord.status.str), ("new_status", s.str)]
            (.ok updatedCase,
             { db2 with notifications := db2.notifications ++ pipelineRows })
          else
            (.ok updatedCase, db1)
        | none => (.ok updatedCase, db1)

/-- Models `caseService.assignLawyer`: NotFound checks for case and lawyer,
`caseRepository.assignLawyer` (an update of `lawyer_id`), a `lawyer_assigned`
event, then detached notifications to client and lawyer. -/
def assignLawyer (db : Db) (now caseId lawyerId assignedBy : Nat)
    (pipelineRows : List NotificationRow) : Except SvcError CaseRow × Db :=
  match db.cases.find? (fun c => c.id == caseId) with
  | none => (.error (.notFound "Case not found"), db)
  | some _ =>
    match db.lawyers.find? (fun l => l.id == lawyerId) with
    | none => (.error (.notFound "Lawyer not found"), db)
    | some _ =>
      let (upd, db1) := caseRepoUpdate db now caseId
        { UpdateCaseData.none_ with lawyer_id := some lawyerId }
      match upd with
      | none => (.error (.notFound "Case not found"), db1)
      | some updatedCase =>
        let db2 := caseEventCreate db1 now caseId (some "lawyer_assigned")
          (some assignedBy) "Lawyer assigned to case"
          [("lawyer_id", toString lawyerId)]
        (.ok updatedCase,
         { db2 with notifications := db2.notifications ++ pipelineRows })

end LawFirm

namespace LawFirm

/-! ## notificationService (in-app notifications) -/

namespace notificationService

/-- Models `create`: INSERT INTO notifications RETURNING *. -/
def create (db : Db) (now newId userId : Nat) (ntype title message : String)
    (caseId : Option Nat) : NotificationRow × Db :=
  let row : NotificationRow :=
    { id := newId, user_id := userId, ntype := ntype, title := title,
      message := message, case_id := caseId, is_read := false,
      created_at := now, read_at := none }
  (row, { db with notifications := db.notifications ++ [row] })

/-- Models `markAsRead`: UPDATE ... WHERE id = $1 AND user_id = $2 RETURNING *;
the service returns the first returned row or null. -/
def markAsRead (db : Db) (now notificationId userId : Nat) :
    Option NotificationRow × Db :=
  let notifications := db.notifications.map fun n =>
    if n.id == notificationId && n.user_id == userId then
      { n with is_read := true, read_at := some now }
    else n
  (notifications.find? (fun n => n.id == notificationId && n.user_id == userId),
   { db with notifications := notifications })

/-- Models `markAllAsRead`: UPDATE ... WHERE user_id = $1 AND is_read = false with no
RETURNING clause, so `result.rows` is empty and the returned count is 0. -/
def markAllAsRead (db : Db) (now userId : Nat) : Nat × Db :=
  let notifications := db.notifications.map fun n =>
    if n.user_id == userId && !n.is_read then
      { n with is_read := true, read_at := some now }
    else n
  (0, { db with notifications := notifications })

/-- Models `delete`: DELETE ... WHERE id = $1 AND user_id = $2 RETURNING id; the
service returns whether any row was deleted. -/
def delete (db : Db) (notificationId userId : Nat) : Bool × Db :=
  let hit := fun (n : NotificationRow) => n.id == notificationId && n.user_id == userId
  (decide (0 < (db.notifications.filter hit).length),
   { db with notifications := db.notifications.filter (fun n => !hit n) })

end notificationService

/-- The row produced by `notifyNewMessage`'s case/client/lawyer join:
`client_user_id`, `client_email`, and nullable `lawyer_user_id` /
`lawyer_email` from the LEFT JOINs. -/
structure MessageCaseInfo where
  client_user_id : Nat
  client_email : String
  lawyer_user_id : Option Nat
  lawyer_email : Option String
deriving Repr, DecidableEq

/-- The SELECT at the head of `notifyNewMessage`:
cases JOIN clients JOIN users LEFT JOIN lawyers LEFT JOIN users. -/
def messageCaseInfo (db : Db) (caseId : Nat) : Option MessageCaseInfo :=
  match db.cases.find? (fun c => c.id == caseId) with
  | none => none
  | some c =>
    match db.clients.find? (fun cl => cl.id == c.client_id) with
    | none => none
    | some cl =>
      match db.users.find? (fun u => u.id == cl.user_id) with
      | none => none
      | some cu =>
        let lrow : Option LawyerRow := match c.lawyer_id with
          | some lid => db.lawyers.find? (fun l => l.id == lid)
          | none => none
        some { client_user_id := cu.id, client_email := cu.email,
               lawyer_user_id := lrow.map (fun l => l.user_id),
               lawyer_email := match lrow with
                 | some l => (db.users.find? (fun u => u.id == l.user_id)).map
                     (fun u => u.email)
                 | none => none }

/-- Models `notificationService.notifyNewMessage`: notify the party other than the
sender, determined by `senderId === caseInfo.client_user_id`.  Returns the new
database and the email addresses handed to the (detached) email sender; a
`none` address stands for a lawyer row whose user row is missing (JS
`undefined`). -/
def notifyNewMessage (db : Db) (now newId caseId senderId : Nat)
    (caseNumber senderName : String) : Db × List (Option String) :=
  match messageCaseInfo db caseId with
  | none => (db, [])
  | some info =>
    let isFromClient := senderId == info.client_user_id
    if isFromClient then
      match info.lawyer_user_id with
      | some lu =>
        let db1 := (notificationService.create db now newId lu "message_received"
          "New Message" (senderName ++ " sent a message on case " ++ caseNumber)
          (some caseId)).2
        (db1, [info.lawyer_email])
      | none => (db, [])
    else
      let db1 := (notificationService.create db now newId info.client_user_id
        "message_received" "New Message"
        (senderName ++ " sent a message on case " ++ caseNumber) (some caseId)).2
      (db1, [some info.client_email])

end LawFirm

namespace LawFirm

/-! ## emailTemplateService.renderTemplate -/

/-- Models `last.split('-')`: split a string on the dash character. -/
def splitOnCharAux (sep : Char) : List Char → List Char → List String
  | [], acc => [⟨acc.reverse⟩]
  | c :: rest, acc =>
    if c == sep then ⟨acc.reverse⟩ :: splitOnCharAux sep rest []
    else splitOnCharAux sep rest (c :: acc)

def splitOnDash (s : String) : List String := splitOnCharAux '-' s.data []

/-- Models `parseInt(s, 10)` on the strings at hand: the maximal leading run of
decimal digits, `none` for JavaScript `NaN`. -/
def jsParseIntSeq (s : String) : Option Nat :=
  let ds := s.data.takeWhile Char.isDigit
  if ds.isEmpty then none
  else some (ds.foldl (fun n c => n * 10 + (c.toNat - 48)) 0)

/-- Models `sequence.toString().padStart(4, '0')`. -/
def padStart4 (s : String) : String :=
  if 4 ≤ s.length then s else ⟨List.replicate (4 - s.length) '0' ++ s.data⟩

/-- The later-created of two rows (ties keep the incumbent; the SQL order
among equal keys is unspecified). -/
def latestPick (best x : String × Nat) : String × Nat :=
  if best.2 < x.2 then x else best

/-- Models `ORDER BY created_at DESC LIMIT 1` over `(case_number, created_at)` rows:
the row with the greatest creation time. -/
def latestBy : List (String × Nat) → Option (String × Nat)
  | [] => none
  | r :: rs => some (rs.foldl latestPick r)

/-- The sequence component of a case number: `parseInt(cn.split('-')[2], 10)`. -/
def seqComponent (cn : String) : Option Nat :=
  jsParseIntSeq ((splitOnDash cn).getD 2 "")

/-- Models `intakeService.generateCaseNumber`: `SELECT case_number FROM cases WHERE
case_number LIKE '{year}-{prefix}-%' ORDER BY created_at DESC LIMIT 1`, then
`sequence = parseInt(last.split('-')[2], 10) + 1` (1 when no row matches),
formatted as `{year}-{prefix}-{padStart4 sequence}`. -/
def generateCaseNumber (year : Nat) (typePrefix : String)
    (rows : List (String × Nat)) : String :=
  let pat := toString year ++ "-" ++ typePrefix ++ "-"
  let matching := rows.filter (fun r => pat.data.isPrefixOf r.1.data)
  match latestBy matching with
  | none => pat ++ padStart4 (toString 1)
  | some r =>
    match seqComponent r.1 with
    | some n => pat ++ padStart4 (toString (n + 1))
    | none => pat ++ padStart4 "NaN"

/-- The claim's allocation rule, written from the specification: the sequence
is 1 plus the highest existing sequence among cases of that year and type
prefix, defaulting to 1 when none exists. -/
def claimedGenerateCaseNumber (year : Nat) (typePrefix : String)
    (rows : List (String × Nat)) : String :=
  let pat := toString year ++ "-" ++ typePrefix ++ "-"
  let matching := rows.filter (fun r => pat.data.isPrefixOf r.1.data)
  let seqs := matching.filterMap (fun r => seqComponent r.1)
  pat ++ padStart4 (toString (seqs.foldl max 0 + 1))

end LawFirm

namespace LawFirm

/-! ## inactivityCheckJob -/

/-- The WHERE clause of `getInactiveCasesForNotification`: status not
closed/archived/resolved, `last_activity_at < NOW() - INTERVAL '1 day' * $1`,
and `last_inactivity_notification` null or older than 7 days. -/
def isInactiveCandidate (now threshold : Nat) (c : CaseRow) : Bool :=
  !(c.status == CaseStatus.closed || c.status == CaseStatus.archived ||
     c.status == CaseStatus.resolved) &&
  decide (c.last_activity_at + threshold * dayMs < now) &&
  (match c.last_inactivity_notification with
   | none => true
   | some t => decide (t + 7 * dayMs < now))

/-- The `JOIN clients … JOIN users` of the selection query (and of
`sendInactivityNotification`'s recipient data). -/
def clientUserOf (db : Db) (c : CaseRow) : Option UserRow :=
  match db.clients.find? (fun cl => cl.id == c.client_id) with
  | none => none
  | some cl => db.users.find? (fun u => u.id == cl.user_id)

/-- Models `inactivityCheckJob.getInactiveCasesForNotification` (the `ORDER BY
last_activity_at` only fixes processing order). -/
def getInactiveCasesForNotification (db : Db) (now threshold : Nat) :
    List CaseRow :=
  db.cases.filter fun c =>
    isInactiveCandidate now threshold c && (clientUserOf db c).isSome

/-- Where the `try { … }` body of the per-case loop can throw BEFORE its final
step: in `sendInactivityNotification` or in `updateNotificationTimestamp`.  The
final step, `logInactivityEvent`, throws unconditionally (see
`processInactiveCase`), so it needs no injection point. -/
inductive ItemFail where
  | atSend | atStamp
deriving Repr, DecidableEq

/-- Models `updateNotificationTimestamp`: `UPDATE cases SET
last_inactivity_notification = NOW() WHERE id = $1`. -/
def stampInactivityNotification (cases : List CaseRow) (caseId now : Nat) :
    List CaseRow :=
  cases.map fun c =>
    if c.id = caseId then { c with last_inactivity_notification := some now } else c

/-- One iteration of the per-case loop of `inactivityCheckJob.run`:
send the in-app notification (the inactivity email is detached boolean-valued
and cannot throw), stamp the throttle timestamp, then attempt the audit event.
That last step, `logInactivityEvent`, passes `CaseEventType.DEADLINE_REMINDER`
as the event type; `DEADLINE_REMINDER` is absent from the `CaseEventType` enum
(part_016), so the bound value is `undefined`, and `case_events.event_type` is a
`NOT NULL` enum column (part_002, line 167), so the INSERT is rejected: no event
row is appended, no trigger fires, and the body always ends in the per-case
`catch`.  `fail` marks an earlier step at which the body throws (none = it
reaches the event INSERT); effects already applied persist.  Returns the new
database and whether the case counts as a success — which is always `false`,
because the body never completes. -/
def processInactiveCase (db : Db) (now newId : Nat) (c : CaseRow)
    (fail : Option ItemFail) : Db × Bool :=
  match fail with
  | some ItemFail.atSend => (db, false)
  | fl =>
    let daysSinceActivity := (now - c.last_activity_at) / dayMs
    let db1 := match clientUserOf db c with
      | some u =>
        (notificationService.create db now newId u.id "system_alert"
          "Case Update Needed"
          ("Your case " ++ c.case_number ++ " has had no activity for " ++
            toString daysSinceActivity ++
            " days. Please log in to review or contact your attorney.")
          (some c.id)).2
      | none => db
    match fl with
    | some ItemFail.atStamp => (db1, false)
    | _ =>
      let db2 := { db1 with cases := stampInactivityNotification db1.cases c.id now }
      (db2, false)

/-- Models `inactivityCheckJob.run`: select once, then process each selected case in
a per-case try/catch, counting successes and failures.  `failOf` injects the
per-case failure point (none = the body runs through to the always-throwing
event INSERT), `idOf` supplies fresh notification row ids.  Returns the final
database and the (successCount, failCount) pair the job logs at completion. -/
def inactivityFold (now : Nat) (failOf : Nat → Option ItemFail) (idOf : Nat → Nat) :
    Db × Nat × Nat → List CaseRow → Db × Nat × Nat
  | acc, [] => acc
  | acc, c :: rest =>
    let r := processInactiveCase acc.1 now (idOf c.id) c (failOf c.id)
    inactivityFold now failOf idOf
      (if r.2 then (r.1, acc.2.1 + 1, acc.2.2) else (r.1, acc.2.1, acc.2.2 + 1)) rest

def inactivityRun (db : Db) (now threshold : Nat)
    (failOf : Nat → Option ItemFail) (idOf : Nat → Nat) : Db × Nat × Nat :=
  inactivityFold now failOf idOf (db, 0, 0)
    (getInactiveCasesForNotification db now threshold)

/-! ## weeklySummaryJob -/

/-- Models `getActiveLawyers`: lawyers JOIN users, `u.is_active AND l.is_available`. -/
def getActiveLawyers (db : Db) : List LawyerRow :=
  db.lawyers.filter fun l =>
    l.is_available &&
    (match db.users.find? (fun u => u.id == l.user_id) with
     | some u => u.is_active
     | none => false)

/-- Models `summary.totalCases`: the number of cases assigned to the lawyer. -/
def lawyerTotalCases (db : Db) (lawyerId : Nat) : Nat :=
  (db.cases.filter (fun c => c.lawyer_id == some lawyerId)).length

/-- Where the per-lawyer try body of `weeklySummaryJob.run` can throw:
in `getLawyerSummary` (before the zero-case skip) or in `sendSummaryEmail`. -/
inductive WeeklyFail where
  | atSummary | atEmail
deriving Repr, DecidableEq

/-- Models `weeklySummaryJob.run`: per-lawyer try/catch; a lawyer whose summary shows
zero assigned cases is skipped (counted neither way); otherwise the summary
email is sent and the success or failure counter is bumped.  Returns the
(successCount, failCount) pair logged at completion. -/
def weeklyFold (db : Db) (failOf : Nat → Option WeeklyFail) :
    Nat × Nat → List LawyerRow → Nat × Nat
  | acc, [] => acc
  | acc, l :: rest =>
    let acc2 :=
      match failOf l.id with
      | some WeeklyFail.atSummary => (acc.1, acc.2 + 1)
      | some WeeklyFail.atEmail =>
        if lawyerTotalCases db l.id = 0 then acc else (acc.1, acc.2 + 1)
      | none =>
        if lawyerTotalCases db l.id = 0 then acc else (acc.1 + 1, acc.2)
    weeklyFold db failOf acc2 rest

def weeklyRun (db : Db) (failOf : Nat → Option WeeklyFail) : Nat × Nat :=
  weeklyFold db failOf (0, 0) (getActiveLawyers db)

end LawFirm

namespace LawFirm

end LawFirm

namespace LawFirm

/-- C10: notification rows are owner-scoped.  `markAsRead`, `markAllAsRead`
and `delete` never modify or remove a row whose `user_id` differs from the
calling user, and when every row carrying the requested id belongs to a
different user, `markAsRead` returns `null` (`none`) and `delete` returns
`false`, both leaving the notifications table unchanged. -/
theorem list_map_noop {α : Type} (l : List α) (f : α → α) (h : ∀ a ∈ l, f a = a) :
    l.map f = l := by
  induction l with
  | nil => rfl
  | cons x xs ih =>
    simp only [List.map_cons, h x (by simp)]
    rw [ih (fun a ha => h a (by simp [ha]))]

theorem C10_notifications_owner_scoped (db : Db) (now nid uid : Nat) :
    (∀ i n, db.notifications.get? i = some n → n.user_id ≠ uid →
      (notificationService.markAsRead db now nid uid).2.notifications.get? i = some n) ∧
    (∀ i n, db.notifications.get? i = some n → n.user_id ≠ uid →
      (notificationService.markAllAsRead db now uid).2.notifications.get? i = some n) ∧
    (∀ n, n ∈ db.notifications → n.user_id ≠ uid →
      n ∈ (notificationService.delete db nid uid).2.notifications) ∧
    ((∀ n ∈ db.notifications, n.id = nid → n.user_id ≠ uid) →
      notificationService.markAsRead db now nid uid = (none, db) ∧
      notificationService.delete db nid uid = (false, db)) := by
  refine ⟨?_, ?_, ?_, ?_⟩
  · intro i n hget hne
    simp only [List.get?_eq_getElem?] at hget ⊢
    simp only [notificationService.markAsRead, List.getElem?_map, hget, Option.map_some']
    rw [if_neg]
    simp only [Bool.and_eq_true, beq_iff_eq, not_and]
    intro _ h2
    exact hne h2
  · intro i n hget hne
    simp only [List.get?_eq_getElem?] at hget ⊢
    simp only [notificationService.markAllAsRead, List.getElem?_map, hget, Option.map_some']
    rw [if_neg]
    simp only [Bool.and_eq_true, beq_iff_eq, not_and]
    intro h1 _
    exact hne h1
  · intro n hmem hne
    simp only [notificationService.delete, List.mem_filter]
    refine ⟨hmem, ?_⟩
    simp only [Bool.not_eq_eq_eq_not, Bool.not_true, Bool.and_eq_false_iff,
      beq_eq_false_iff_ne]
    right; exact hne
  · intro hforeign
    have hmiss : ∀ n ∈ db.notifications, (n.id == nid && n.user_id == uid) = false := by
      intro n hn
      by_cases hid : n.id = nid
      · simp only [Bool.and_eq_false_iff, beq_eq_false_iff_ne]
        right; exact hforeign n hn hid
      · simp only [Bool.and_eq_false_iff, beq_eq_false_iff_ne]
        left; exact hid
    have hmap : db.notifications.map (fun n =>
        if n.id == nid && n.user_id == uid then
          { n with is_read := true, read_at := some now } else n) =
        db.notifications := by
      apply list_map_noop
      intro n hn
      simp [hmiss n hn]
    have hfind : db.notifications.find? (fun n => n.id == nid && n.user_id == uid) = none := by
      rw [List.find?_eq_none]
      intro n hn
      simp [hmiss n hn]
    constructor
    · simp only [notificationService.markAsRead, hmap, hfind]
    · have hfilter0 : db.notifications.filter
          (fun n => n.id == nid && n.user_id == uid) = [] := by
        rw [List.filter_eq_nil]
        intro n hn
        simp [hmiss n hn]
      have hfilter1 : db.notifications.filter
          (fun n => !(n.id == nid && n.user_id == uid)) = db.notifications := by
        rw [List.filter_eq_self]
        intro n hn
        simp [hmiss n hn]
      simp only [notificationService.delete, hfilter0, hfilter1,
        List.length_nil, decide_eq_true_eq]
      simp

def c10SampleRow : NotificationRow :=
  { id := 1, user_id := 7, ntype := "system_alert", title := "t", message := "m",
    case_id := none, is_read := false, created_at := 0, read_at := none }

def c10SampleDb : Db :=
  { cases := [], case_events := [], notifications := [c10SampleRow],
    clients := [], lawyers := [], users := [], case_number_seq := 0 }

theorem C10_notifications_owner_scoped_witness :
    (∀ n ∈ c10SampleDb.notifications, n.id = 1 → n.user_id ≠ 9) ∧
    notificationService.markAsRead c10SampleDb 5 1 9 = (none, c10SampleDb) ∧
    notificationService.delete c10SampleDb 1 9 = (false, c10SampleDb) := by
  have hforeign : ∀ n ∈ c10SampleDb.notifications, n.id = 1 → n.user_id ≠ 9 := by
    intro n hn h1
    simp only [c10SampleDb, c10SampleRow, List.mem_singleton] at hn
    subst hn
    decide
  have h := (C10_notifications_owner_scoped c10SampleDb 5 1 9).2.2.2 hforeign
  exact ⟨hforeign, h.1, h.2⟩

end LawFirm

namespace LawFirm

/-- C7: for a message-sent event the recipient is the other party, chosen by
comparing the sender's user id with the case's client user id: a sender equal
to the client user id routes to the assigned lawyer's user (in-app row plus
email address), any other sender routes to the client (in-app row plus email),
and when the sender is the client and no lawyer user is joined, nothing is
created and no error is raised. -/
theorem C7_message_recipient_routing (db : Db) (now newId caseId senderId : Nat)
    (caseNumber senderName : String) (info : MessageCaseInfo)
    (hinfo : messageCaseInfo db caseId = some info) :
    (∀ lu, senderId = info.client_user_id → info.lawyer_user_id = some lu →
      notifyNewMessage db now newId caseId senderId caseNumber senderName =
        ({ db with notifications := db.notifications ++
            [{ id := newId, user_id := lu, ntype := "message_received",
               title := "New Message",
               message := senderName ++ " sent a message on case " ++ caseNumber,
               case_id := some caseId, is_read := false, created_at := now,
               read_at := none }] }, [info.lawyer_email])) ∧
    (senderId = info.client_user_id → info.lawyer_user_id = none →
      notifyNewMessage db now newId caseId senderId caseNumber senderName =
        (db, [])) ∧
    (senderId ≠ info.client_user_id →
      notifyNewMessage db now newId caseId senderId caseNumber senderName =
        ({ db with notifications := db.notifications ++
            [{ id := newId, user_id := info.client_user_id,
               ntype := "message_received", title := "New Message",
               message := senderName ++ " sent a message on case " ++ caseNumber,
               case_id := some caseId, is_read := false, created_at := now,
               read_at := none }] }, [some info.client_email])) := by
  refine ⟨?_, ?_, ?_⟩
  · intro lu h1 h2
    have hb : (senderId == info.client_user_id) = true := by simp [h1]
    simp [notifyNewMessage, hinfo, hb, h2, notificationService.create]
  · intro h1 h2
    have hb : (senderId == info.client_user_id) = true := by simp [h1]
    simp [notifyNewMessage, hinfo, hb, h2]
  · intro hne
    have hb : (senderId == info.client_user_id) = false := by
      simp [beq_eq_false_iff_ne, hne]
    simp [notifyNewMessage, hinfo, hb, notificationService.create]

def c7ClientUser : UserRow :=
  { id := 10, email := "ana@example.com", first_name := "Ana", last_name := "C",
    is_active := true }

def c7LawyerUser : UserRow :=
  { id := 20, email := "jane@example.com", first_name := "Jane", last_name := "A",
    is_active := true }

def c7Case : CaseRow :=
  { id := 1, case_number := "2025-PI-0001", client_id := 100,
    lawyer_id := some 200, title := "t", description := none,
    status := CaseStatus.active, priority := 3, case_type := some "personal_injury",
    closed_at := none, last_activity_at := 0,
    last_inactivity_notification := none, created_at := 0 }

def c7Db : Db :=
  { cases := [c7Case], case_events := [], notifications := [],
    clients := [{ id := 100, user_id := 10 }],
    lawyers := [{ id := 200, user_id := 20, is_available := true }],
    users := [c7ClientUser, c7LawyerUser], case_number_seq := 0 }

theorem C7_message_recipient_routing_witness :
    messageCaseInfo c7Db 1 =
      some { client_user_id := 10, client_email := "ana@example.com",
             lawyer_user_id := some 20,
             lawyer_email := some "jane@example.com" } ∧
    notifyNewMessage c7Db 5 1 1 10 "2025-PI-0001" "Ana C" =
      ({ c7Db with notifications :=
          [{ id := 1, user_id := 20, ntype := "message_received",
             title := "New Message",
             message := "Ana C sent a message on case 2025-PI-0001",
             case_id := some 1, is_read := false, created_at := 5,
             read_at := none }] }, [some "jane@example.com"]) := by
  have hinfo : messageCaseInfo c7Db 1 =
      some { client_user_id := 10, client_email := "ana@example.com",
             lawyer_user_id := some 20,
             lawyer_email := some "jane@example.com" } := by decide
  refine ⟨hinfo, ?_⟩
  have h := (C7_message_recipient_routing c7Db 5 1 1 10 "2025-PI-0001" "Ana C" _
    hinfo).1 20 rfl rfl
  simpa using h

end LawFirm

namespace LawFirm

theorem foldl_max_init_le (l : List Nat) : ∀ a, a ≤ l.foldl max a := by
  induction l with
  | nil => intro a; exact le_refl a
  | cons x xs ih =>
    intro a
    exact le_trans (le_max_left a x) (ih (max a x))

theorem mem_le_foldl_max (l : List Nat) : ∀ a x, x ∈ l → x ≤ l.foldl max a := by
  induction l with
  | nil => intro a x hx; cases hx
  | cons y ys ih =>
    intro a x hx
    rcases List.mem_cons.mp hx with h | h
    · subst h
      exact le_trans (le_max_right a x) (foldl_max_init_le ys (max a x))
    · exact ih (max a y) x h

theorem foldl_max_le (l : List Nat) :
    ∀ a b, a ≤ b → (∀ x ∈ l, x ≤ b) → l.foldl max a ≤ b := by
  induction l with
  | nil => intro a b hab _; exact hab
  | cons y ys ih =>
    intro a b hab hall
    apply ih (max a y) b
    · exact max_le hab (hall y (by simp))
    · intro x hx; exact hall x (by simp [hx])

theorem foldl_latestPick_mem : ∀ (rs : List (String × Nat)) (r : String × Nat),
    rs.foldl latestPick r ∈ r :: rs := by
  intro rs
  induction rs with
  | nil => intro r; simp [List.foldl]
  | cons y ys ih =>
    intro r
    have h := ih (latestPick r y)
    simp only [List.foldl_cons]
    rcases List.mem_cons.mp h with h1 | h1
    · rw [h1]
      unfold latestPick
      split
      · simp
      · simp
    · simp [List.mem_cons.mpr (Or.inr (List.mem_cons.mpr (Or.inr h1)))]

theorem foldl_latestPick_ge : ∀ (rs : List (String × Nat)) (r : String × Nat),
    r.2 ≤ (rs.foldl latestPick r).2 ∧ ∀ x ∈ rs, x.2 ≤ (rs.foldl latestPick r).2 := by
  intro rs
  induction rs with
  | nil => intro r; exact ⟨le_refl _, by intro x hx; cases hx⟩
  | cons y ys ih =>
    intro r
    have h := ih (latestPick r y)
    have hr : r.2 ≤ (latestPick r y).2 := by
      unfold latestPick; split <;> omega
    have hy : y.2 ≤ (latestPick r y).2 := by
      unfold latestPick; split <;> omega
    simp only [List.foldl_cons]
    refine ⟨le_trans hr h.1, ?_⟩
    intro x hx
    rcases List.mem_cons.mp hx with h1 | h1
    · subst h1; exact le_trans hy h.1
    · exact h.2 x h1

theorem latestBy_mem {l : List (String × Nat)} {r : String × Nat}
    (h : latestBy l = some r) : r ∈ l := by
  cases l with
  | nil => simp [latestBy] at h
  | cons x xs =>
    simp only [latestBy, Option.some.injEq] at h
    rw [← h]
    exact foldl_latestPick_mem xs x

theorem latestBy_max {l : List (String × Nat)} {r : String × Nat}
    (h : latestBy l = some r) : ∀ x ∈ l, x.2 ≤ r.2 := by
  cases l with
  | nil => simp [latestBy] at h
  | cons y ys =>
    simp only [latestBy, Option.some.injEq] at h
    intro x hx
    rw [← h]
    rcases List.mem_cons.mp hx with h1 | h1
    · subst h1; exact (foldl_latestPick_ge ys x).1
    · exact (foldl_latestPick_ge ys y).2 x h1

end LawFirm

namespace LawFirm

/-- C6 counterexample: with existing cases `2025-PI-0005` (created first) and
`2025-PI-0002` (created later), the intake allocator follows the most recently
created case and yields `2025-PI-0003`, while the claim's "1 plus the highest
existing sequence" rule demands `2025-PI-0006`. -/
theorem C6_counterexample_latest_not_highest :
    generateCaseNumber 2025 "PI" [("2025-PI-0005", 1), ("2025-PI-0002", 2)] =
      "2025-PI-0003" ∧
    claimedGenerateCaseNumber 2025 "PI" [("2025-PI-0005", 1), ("2025-PI-0002", 2)] =
      "2025-PI-0006" ∧
    generateCaseNumber 2025 "PI" [("2025-PI-0005", 1), ("2025-PI-0002", 2)] ≠
      claimedGenerateCaseNumber 2025 "PI" [("2025-PI-0005", 1), ("2025-PI-0002", 2)] := by
  refine ⟨by decide, by decide, by decide⟩

/-- C6 (amended): the intake allocator takes 1 plus the sequence of the *most
recently created* case of that year and type prefix (default 1); this agrees
with the claim's "1 plus the highest sequence" whenever sequences are
monotone in creation time, which ordinary operation maintains.  Case creation
through `caseRepository.createWithEvent` instead draws
`CASE-{year}-{5-digit global sequence}` from the database function.  In both
paths the created case has status `new` and exactly one `case_created` event
is appended. -/
theorem C6_case_number_allocation
    (year : Nat) (tp : String) (rows : List (String × Nat))
    (db : Db) (now newId : Nat) (data : CreateCaseData) (actorId : Option Nat)
    (hwf : ∀ r ∈ rows,
      (toString year ++ "-" ++ tp ++ "-").data.isPrefixOf r.1.data →
      (seqComponent r.1).isSome = true)
    (hmono : ∀ r ∈ rows, ∀ r' ∈ rows,
      (toString year ++ "-" ++ tp ++ "-").data.isPrefixOf r.1.data →
      (toString year ++ "-" ++ tp ++ "-").data.isPrefixOf r'.1.data →
      r.2 ≤ r'.2 → (seqComponent r.1).getD 0 ≤ (seqComponent r'.1).getD 0) :
    generateCaseNumber year tp rows = claimedGenerateCaseNumber year tp rows ∧
    (createWithEvent db now year newId data actorId).1.status = CaseStatus.new ∧
    (createWithEvent db now year newId data actorId).1.case_number =
      sql_generate_case_number (db.case_number_seq + 1) year ∧
    (createWithEvent db now year newId data actorId).2.case_events =
      db.case_events ++
        [{ case_id := newId, event_type := some "case_created",
           actor_id := actorId, description := "Case created: " ++ data.title,
           metadata := [("case_number",
             sql_generate_case_number (db.case_number_seq + 1) year),
             ("title", data.title)],
           created_at := now }] := by
  refine ⟨?_, rfl, rfl, rfl⟩
  unfold generateCaseNumber claimedGenerateCaseNumber
  dsimp only
  set pat := toString year ++ "-" ++ tp ++ "-" with hpat
  set matching := rows.filter (fun r => pat.data.isPrefixOf r.1.data) with hmatch
  cases hlatest : latestBy matching with
  | none =>
    have hm : matching = [] := by
      cases hmm : matching with
      | nil => rfl
      | cons x xs => rw [hmm] at hlatest; simp [latestBy] at hlatest
    rw [hm]
    simp
  | some r0 =>
    have hr0mem := latestBy_mem hlatest
    have hr0rows : r0 ∈ rows := (List.mem_filter.mp hr0mem).1
    have hr0pref : pat.data.isPrefixOf r0.1.data = true :=
      (List.mem_filter.mp hr0mem).2
    obtain ⟨n0, hn0⟩ := Option.isSome_iff_exists.mp (hwf r0 hr0rows hr0pref)
    have hmax : (matching.filterMap (fun r => seqComponent r.1)).foldl max 0 = n0 := by
      apply le_antisymm
      · apply foldl_max_le
        · exact Nat.zero_le n0
        · intro x hx
          rcases List.mem_filterMap.mp hx with ⟨r, hrmem, hrseq⟩
          have hrrows : r ∈ rows := (List.mem_filter.mp hrmem).1
          have hrpref := (List.mem_filter.mp hrmem).2
          have hle := hmono r hrrows r0 hr0rows hrpref hr0pref
            (latestBy_max hlatest r hrmem)
          rw [hrseq, hn0] at hle
          simpa using hle
      · apply mem_le_foldl_max
        apply List.mem_filterMap.mpr
        exact ⟨r0, hr0mem, hn0⟩
    dsimp only
    rw [hn0, hmax]

theorem C6_case_number_allocation_witness :
    generateCaseNumber 2025 "PI" [("2025-PI-0001", 1), ("2025-PI-0002", 2)] =
      claimedGenerateCaseNumber 2025 "PI" [("2025-PI-0001", 1), ("2025-PI-0002", 2)] ∧
    generateCaseNumber 2025 "PI" [("2025-PI-0001", 1), ("2025-PI-0002", 2)] =
      "2025-PI-0003" :=
  ⟨(C6_case_number_allocation 2025 "PI" [("2025-PI-0001", 1), ("2025-PI-0002", 2)]
      { cases := [], case_events := [], notifications := [], clients := [],
        lawyers := [], users := [], case_number_seq := 0 } 0 1
      { client_id := 1, lawyer_id := none, title := "t", description := none,
        case_type := none, priority := none } none
      (by decide) (by decide)).1,
   by decide⟩

end LawFirm

namespace LawFirm

theorem applyUpdate_last_activity_at (now : Nat) (data : UpdateCaseData) (c : CaseRow) :
    (applyUpdate now data c).last_activity_at = c.last_activity_at := rfl

theorem applyUpdate_id (now : Nat) (data : UpdateCaseData) (c : CaseRow) :
    (applyUpdate now data c).id = c.id := rfl

theorem bumpLastActivity_mem (cases : List CaseRow) (cid now : Nat) :
    ∀ c' ∈ bumpLastActivity cases cid now, c'.id = cid → c'.last_activity_at = now := by
  intro c' hc' hid
  rcases List.mem_map.mp hc' with ⟨c, _, hmap⟩
  by_cases h : c.id = cid
  · rw [← hmap]
    simp [h]
  · rw [← hmap] at hid
    simp only [h, if_false] at hid

theorem bumpLastActivity_get? (cases : List CaseRow) (cid now : Nat) (i : Nat)
    (c : CaseRow) (h : cases.get? i = some c) :
    (bumpLastActivity cases cid now).get? i =
      some (if c.id = cid then { c with last_activity_at := now } else c) := by
  simp only [List.get?_eq_getElem?] at h ⊢
  simp [bumpLastActivity, List.getElem?_map, h]

end LawFirm

namespace LawFirm

/-- C5: every CaseEvent append (the repository insert plus the
`update_case_last_activity` trigger) stamps the appended event with the append
time and bumps the owning case's `last_activity_at` to that same time, so it
ends `≥` the event's `created_at` and — when the clock is monotone — `≥` its
previous value; consequently each successful service mutation (create, status
change, lawyer assignment) leaves the touched case's `last_activity_at` no
smaller than before. -/
theorem C5_event_append_bumps_last_activity
    (db : Db) (now cid : Nat) (et : Option String) (act : Option Nat)
    (desc : String) (md : List (String × String)) :
    ((caseEventCreate db now cid et act desc md).case_events =
      db.case_events ++ [{ case_id := cid, event_type := et, actor_id := act,
                           description := desc, metadata := md,
                           created_at := now }]) ∧
    (∀ c' ∈ (caseEventCreate db now cid et act desc md).cases,
      c'.id = cid → c'.last_activity_at = now) ∧
    (∀ i c, db.cases.get? i = some c → c.last_activity_at ≤ now →
      ∃ c', (caseEventCreate db now cid et act desc md).cases.get? i = some c' ∧
        c.last_activity_at ≤ c'.last_activity_at) ∧
    (∀ year newId data actorId prs res db',
      createCase db now year newId data actorId prs = (Except.ok res, db') →
      res.last_activity_at = now ∧
      ∀ c' ∈ db'.cases, c'.id = newId → c'.last_activity_at = now) ∧
    (∀ caseId data userId prs res db',
      updateCase db now caseId data userId false true prs = (Except.ok res, db') →
      ∀ i c, db.cases.get? i = some c → c.last_activity_at ≤ now →
        ∃ c', db'.cases.get? i = some c' ∧
          c.last_activity_at ≤ c'.last_activity_at) ∧
    (∀ caseId lawyerId assignedBy prs res db',
      assignLawyer db now caseId lawyerId assignedBy prs = (Except.ok res, db') →
      ∀ i c, db.cases.get? i = some c → c.last_activity_at ≤ now →
        ∃ c', db'.cases.get? i = some c' ∧
          c.last_activity_at ≤ c'.last_activity_at) := by
  refine ⟨rfl, ?_, ?_, ?_, ?_, ?_⟩
  · exact bumpLastActivity_mem db.cases cid now
  · intro i c hget hclock
    refine ⟨_, bumpLastActivity_get? db.cases cid now i c hget, ?_⟩
    by_cases h : c.id = cid
    · simp [h]; omega
    · simp [h]
  · intro year newId data actorId prs res db' heq
    simp only [createCase] at heq
    split at heq
    · simp at heq
    · split at heq
      · simp only [createWithEvent, caseEventCreate, Prod.mk.injEq,
          Except.ok.injEq] at heq
        obtain ⟨hres, hdb⟩ := heq
        constructor
        · rw [← hres]
        · rw [← hdb]
          intro c' hc' hid
          exact bumpLastActivity_mem _ newId now c' hc' hid
      · simp at heq
  · intro caseId data userId prs res db' heq
    simp only [updateCase] at heq
    split at heq
    · simp at heq
    · simp only [Bool.false_eq_true, if_false, Bool.not_true] at heq
      split at heq
      · simp at heq
      · split at heq
        · split at heq
          · simp only [caseRepoUpdate, caseEventCreate, Prod.mk.injEq,
              Except.ok.injEq] at heq
            obtain ⟨_, hdb⟩ := heq
            intro i c hget hclock
            rw [← hdb]
            have hmap : (db.cases.map fun c0 =>
                if c0.id = caseId then applyUpdate now data c0 else c0).get? i =
                some (if c.id = caseId then applyUpdate now data c else c) := by
              simp only [List.get?_eq_getElem?] at hget ⊢
              simp [List.getElem?_map, hget]
            by_cases hid : c.id = caseId
            · rw [if_pos hid] at hmap
              have hb := bumpLastActivity_get? _ caseId now i _ hmap
              have hidu : (applyUpdate now data c).id = caseId := by
                rw [applyUpdate_id]; exact hid
              rw [if_pos hidu] at hb
              exact ⟨_, hb, by simpa using hclock⟩
            · rw [if_neg hid] at hmap
              have hb := bumpLastActivity_get? _ caseId now i _ hmap
              rw [if_neg hid] at hb
              exact ⟨_, hb, le_refl _⟩
          · simp only [caseRepoUpdate, Prod.mk.injEq, Except.ok.injEq] at heq
            obtain ⟨_, hdb⟩ := heq
            intro i c hget _
            rw [← hdb]
            have hmap : (db.cases.map fun c0 =>
                if c0.id = caseId then applyUpdate now data c0 else c0).get? i =
                some (if c.id = caseId then applyUpdate now data c else c) := by
              simp only [List.get?_eq_getElem?] at hget ⊢
              simp [List.getElem?_map, hget]
            by_cases hid : c.id = caseId
            · rw [if_pos hid] at hmap
              refine ⟨_, hmap, ?_⟩
              rw [applyUpdate_last_activity_at]
            · rw [if_neg hid] at hmap
              exact ⟨_, hmap, le_refl _⟩
        · simp only [caseRepoUpdate, Prod.mk.injEq, Except.ok.injEq] at heq
          obtain ⟨_, hdb⟩ := heq
          intro i c hget _
          rw [← hdb]
          have hmap : (db.cases.map fun c0 =>
              if c0.id = caseId then applyUpdate now data c0 else c0).get? i =
              some (if c.id = caseId then applyUpdate now data c else c) := by
            simp only [List.get?_eq_getElem?] at hget ⊢
            simp [List.getElem?_map, hget]
          by_cases hid : c.id = caseId
          · rw [if_pos hid] at hmap
            refine ⟨_, hmap, ?_⟩
            rw [applyUpdate_last_activity_at]
          · rw [if_neg hid] at hmap
            exact ⟨_, hmap, le_refl _⟩
  · intro caseId lawyerId assignedBy prs res db' heq
    simp only [assignLawyer] at heq
    split at heq
    · simp at heq
    · split at heq
      · simp at heq
      · split at heq
        · simp at heq
        · simp only [caseRepoUpdate, caseEventCreate, Prod.mk.injEq,
            Except.ok.injEq] at heq
          obtain ⟨_, hdb⟩ := heq
          intro i c hget hclock
          rw [← hdb]
          have hmap : (db.cases.map fun c0 =>
              if c0.id = caseId then
                applyUpdate now
                  { UpdateCaseData.none_ with lawyer_id := some lawyerId } c0
              else c0).get? i =
              some (if c.id = caseId then
                applyUpdate now
                  { UpdateCaseData.none_ with lawyer_id := some lawyerId } c
              else c) := by
            simp only [List.get?_eq_getElem?] at hget ⊢
            simp [List.getElem?_map, hget]
          by_cases hid : c.id = caseId
          · rw [if_pos hid] at hmap
            have hb := bumpLastActivity_get? _ caseId now i _ hmap
            have hidu : (applyUpdate now
                { UpdateCaseData.none_ with lawyer_id := some lawyerId } c).id =
                caseId := by
              rw [applyUpdate_id]; exact hid
            rw [if_pos hidu] at hb
            exact ⟨_, hb, by simpa using hclock⟩
          · rw [if_neg hid] at hmap
            have hb := bumpLastActivity_get? _ caseId now i _ hmap
            rw [if_neg hid] at hb
            exact ⟨_, hb, le_refl _⟩

end LawFirm

namespace LawFirm

def c5Case : CaseRow :=
  { id := 1, case_number := "CASE-2025-00001", client_id := 100,
    lawyer_id := none, title := "t", description := none,
    status := CaseStatus.new, priority := 3, case_type := none,
    closed_at := none, last_activity_at := 0,
    last_inactivity_notification := none, created_at := 0 }

def c5Db : Db :=
  { cases := [c5Case], case_events := [], notifications := [],
    clients := [{ id := 100, user_id := 10 }], lawyers := [],
    users := [], case_number_seq := 1 }

theorem C5_event_append_bumps_last_activity_witness :
    c5Db.cases.get? 0 = some c5Case ∧ c5Case.last_activity_at ≤ 5 ∧
    ∃ c', (caseEventCreate c5Db 5 1 (some "status_changed") none "d" []).cases.get? 0 =
        some c' ∧ c5Case.last_activity_at ≤ c'.last_activity_at :=
  ⟨rfl, by decide,
   (C5_event_append_bumps_last_activity c5Db 5 1 (some "status_changed") none "d" []).2.2.1
     0 c5Case rfl (by decide)⟩

end LawFirm

namespace LawFirm

/-- C1: `sendEmail` always returns a boolean — `false` once every attempt has
failed and the retries are exhausted — and the notification dispatch of each
case mutation is detached: whatever the pipeline manages to write, the
mutation's returned value and its case and audit-event tables are unchanged,
and with valid references the mutation succeeds regardless of the pipeline. -/
theorem C1_notification_isolation :
    (∀ apiKeyConfigured transport jitter,
      (∀ k, transport k ≠ SendOutcome.ok) →
      (sendEmail apiKeyConfigured transport jitter).ok = false) ∧
    (∀ db now year newId data actorId p1 p2,
      (createCase db now year newId data actorId p1).1 =
        (createCase db now year newId data actorId p2).1 ∧
      (createCase db now year newId data actorId p1).2.cases =
        (createCase db now year newId data actorId p2).2.cases ∧
      (createCase db now year newId data actorId p1).2.case_events =
        (createCase db now year newId data actorId p2).2.case_events) ∧
    (∀ db now caseId data userId uic aok p1 p2,
      (updateCase db now caseId data userId uic aok p1).1 =
        (updateCase db now caseId data userId uic aok p2).1 ∧
      (updateCase db now caseId data userId uic aok p1).2.cases =
        (updateCase db now caseId data userId uic aok p2).2.cases ∧
      (updateCase db now caseId data userId uic aok p1).2.case_events =
        (updateCase db now caseId data userId uic aok p2).2.case_events) ∧
    (∀ db now caseId lawyerId assignedBy p1 p2,
      (assignLawyer db now caseId lawyerId assignedBy p1).1 =
        (assignLawyer db now caseId lawyerId assignedBy p2).1 ∧
      (assignLawyer db now caseId lawyerId assignedBy p1).2.cases =
        (assignLawyer db now caseId lawyerId assignedBy p2).2.cases ∧
      (assignLawyer db now caseId lawyerId assignedBy p1).2.case_events =
        (assignLawyer db now caseId lawyerId assignedBy p2).2.case_events) ∧
    (∀ db now year newId data actorId prs client,
      db.clients.find? (fun c => c.id == data.client_id) = some client →
      data.lawyer_id = none →
      ∃ res db', createCase db now year newId data actorId prs =
        (Except.ok res, db')) := by
  refine ⟨?_, ?_, ?_, ?_, ?_⟩
  · intro apiKeyConfigured transport jitter hnone
    cases apiKeyConfigured with
    | false => rfl
    | true =>
      simpa [sendEmail] using
        sendAttempts_never_ok transport jitter hnone (RETRY_CONFIG.maxRetries + 1) 0
  · intro db now year newId data actorId p1 p2
    simp only [createCase]
    repeat' split
    all_goals exact ⟨rfl, rfl, rfl⟩
  · intro db now caseId data userId uic aok p1 p2
    simp only [updateCase]
    repeat' split
    all_goals exact ⟨rfl, rfl, rfl⟩
  · intro db now caseId lawyerId assignedBy p1 p2
    simp only [assignLawyer]
    repeat' split
    all_goals exact ⟨rfl, rfl, rfl⟩
  · intro db now year newId data actorId prs client hclient hno
    simp only [createCase, hclient, hno]
    exact ⟨_, _, rfl⟩

theorem C1_notification_isolation_witness :
    ((∀ k : Nat,
      (fun _ => SendOutcome.err { statusCode := some 500, code := none }) k ≠
        SendOutcome.ok) ∧
     (sendEmail true
        (fun _ => SendOutcome.err { statusCode := some 500, code := none })
        (fun _ => 0)).ok = false) ∧
    ∃ res db', createCase c5Db 7 2025 2
      { client_id := 100, lawyer_id := none, title := "t2", description := none,
        case_type := none, priority := none } none
      [c10SampleRow] = (Except.ok res, db') :=
  by
  refine ⟨⟨?_, ?_⟩, ?_⟩
  · intro k h
    simp at h
  · exact C1_notification_isolation.1 true _ (fun _ => 0)
      (by intro k h; simp at h)
  · exact C1_notification_isolation.2.2.2.2 _ _ _ _ _ _ _
      { id := 100, user_id := 10 } (by decide) rfl

end LawFirm

namespace LawFirm

theorem processInactiveCase_ok (db : Db) (now nid : Nat) (c : CaseRow) :
    ∀ fl, (processInactiveCase db now nid c fl).2 = false := by
  intro fl
  match fl with
  | none => rfl
  | some ItemFail.atSend => rfl
  | some ItemFail.atStamp => rfl

theorem inactivityFold_counts (now : Nat) (failOf : Nat → Option ItemFail)
    (idOf : Nat → Nat) :
    ∀ (l : List CaseRow) (acc : Db × Nat × Nat),
      (inactivityFold now failOf idOf acc l).2.1 = acc.2.1 ∧
      (inactivityFold now failOf idOf acc l).2.2 = acc.2.2 + l.length := by
  intro l
  induction l with
  | nil => intro acc; simp [inactivityFold]
  | cons c rest ih =>
    intro acc
    simp only [inactivityFold]
    have hok := processInactiveCase_ok acc.1 now (idOf c.id) c (failOf c.id)
    simp only [hok, Bool.false_eq_true, if_false]
    have hih := ih ((processInactiveCase acc.1 now (idOf c.id) c (failOf c.id)).1,
      acc.2.1, acc.2.2 + 1)
    refine ⟨hih.1, ?_⟩
    rw [hih.2]
    simp only [List.length_cons]
    omega

theorem weeklyFold_counts (db : Db) (failOf : Nat → Option WeeklyFail) :
    ∀ (l : List LawyerRow) (acc : Nat × Nat),
      (weeklyFold db failOf acc l).1 =
        acc.1 + (l.filter (fun lw => (failOf lw.id).isNone &&
          !(lawyerTotalCases db lw.id == 0))).length ∧
      (weeklyFold db failOf acc l).2 =
        acc.2 + (l.filter (fun lw => failOf lw.id == some WeeklyFail.atSummary ||
          (failOf lw.id == some WeeklyFail.atEmail &&
            !(lawyerTotalCases db lw.id == 0)))).length := by
  intro l
  induction l with
  | nil => intro acc; simp [weeklyFold]
  | cons lw rest ih =>
    intro acc
    simp only [weeklyFold]
    cases hfl : failOf lw.id with
    | none =>
      by_cases hz : lawyerTotalCases db lw.id = 0
      · dsimp only
        rw [if_pos hz]
        have hp : ((failOf lw.id).isNone &&
            !(lawyerTotalCases db lw.id == 0)) = false := by
          simp [hz]
        have hq : ((failOf lw.id == some WeeklyFail.atSummary) ||
            ((failOf lw.id == some WeeklyFail.atEmail) &&
              !(lawyerTotalCases db lw.id == 0))) = false := by
          simp [hfl]
        simp only [List.filter_cons, hp, hq, Bool.false_eq_true, if_false]
        exact ⟨(ih acc).1, (ih acc).2⟩
      · dsimp only
        rw [if_neg hz]
        have hp : ((failOf lw.id).isNone &&
            !(lawyerTotalCases db lw.id == 0)) = true := by
          simp [hfl, hz]
        have hq : ((failOf lw.id == some WeeklyFail.atSummary) ||
            ((failOf lw.id == some WeeklyFail.atEmail) &&
              !(lawyerTotalCases db lw.id == 0))) = false := by
          simp [hfl]
        simp only [List.filter_cons, hp, hq, Bool.false_eq_true, if_true, if_false]
        constructor
        · rw [(ih (acc.1 + 1, acc.2)).1]
          simp only [List.length_cons]
          omega
        · exact (ih (acc.1 + 1, acc.2)).2
    | some x =>
      cases x with
      | atSummary =>
        have hp : ((failOf lw.id).isNone &&
            !(lawyerTotalCases db lw.id == 0)) = false := by
          simp [hfl]
        have hq : ((failOf lw.id == some WeeklyFail.atSummary) ||
            ((failOf lw.id == some WeeklyFail.atEmail) &&
              !(lawyerTotalCases db lw.id == 0))) = true := by
          simp [hfl]
        simp only [List.filter_cons, hp, hq, Bool.false_eq_true, if_true, if_false]
        constructor
        · exact (ih (acc.1, acc.2 + 1)).1
        · rw [(ih (acc.1, acc.2 + 1)).2]
          simp only [List.length_cons]
          omega
      | atEmail =>
        by_cases hz : lawyerTotalCases db lw.id = 0
        · dsimp only
          rw [if_pos hz]
          have hp : ((failOf lw.id).isNone &&
              !(lawyerTotalCases db lw.id == 0)) = false := by
            simp [hfl]
          have hq : ((failOf lw.id == some WeeklyFail.atSummary) ||
              ((failOf lw.id == some WeeklyFail.atEmail) &&
                !(lawyerTotalCases db lw.id == 0))) = false := by
            simp [hfl, hz]
          simp only [List.filter_cons, hp, hq, Bool.false_eq_true, if_false]
          exact ⟨(ih acc).1, (ih acc).2⟩
        · dsimp only
          rw [if_neg hz]
          have hp : ((failOf lw.id).isNone &&
              !(lawyerTotalCases db lw.id == 0)) = false := by
            simp [hfl]
          have hq : ((failOf lw.id == some WeeklyFail.atSummary) ||
              ((failOf lw.id == some WeeklyFail.atEmail) &&
                !(lawyerTotalCases db lw.id == 0))) = true := by
            simp [hfl, hz]
          simp only [List.filter_cons, hp, hq, Bool.false_eq_true, if_true, if_false]
          constructor
          · exact (ih (acc.1, acc.2 + 1)).1
          · rw [(ih (acc.1, acc.2 + 1)).2]
            simp only [List.length_cons]
            omega

/-- C9: in both batch jobs every item of the run is processed inside its own
try/catch: an item's failure bumps the failure counter and the loop continues,
so the final counters the jobs log at completion always account for the whole
selected batch, independent of where in the batch failures occur.  In the
inactivity job every item's body ends in the catch — the closing
`logInactivityEvent` INSERT always throws, since `CaseEventType.DEADLINE_REMINDER`
is undefined and `case_events.event_type` is NOT NULL — so whatever earlier
failures are injected, the job logs successCount 0 and failCount equal to the
size of the selected batch.  In the weekly digest successes are exactly the
non-failing lawyers with at least one case (zero-case lawyers are skipped),
failures are exactly the failing items. -/
theorem C9_batch_failure_isolation (db : Db) (now threshold : Nat)
    (failOf : Nat → Option ItemFail) (idOf : Nat → Nat)
    (wfail : Nat → Option WeeklyFail) :
    ((inactivityRun db now threshold failOf idOf).2.1 = 0) ∧
    ((inactivityRun db now threshold failOf idOf).2.2 =
      (getInactiveCasesForNotification db now threshold).length) ∧
    ((weeklyRun db wfail).1 =
      ((getActiveLawyers db).filter (fun lw => (wfail lw.id).isNone &&
        !(lawyerTotalCases db lw.id == 0))).length) ∧
    ((weeklyRun db wfail).2 =
      ((getActiveLawyers db).filter
        (fun lw => wfail lw.id == some WeeklyFail.atSummary ||
          (wfail lw.id == some WeeklyFail.atEmail &&
            !(lawyerTotalCases db lw.id == 0)))).length) := by
  have h1 := inactivityFold_counts now failOf idOf
    (getInactiveCasesForNotification db now threshold) (db, 0, 0)
  have h2 := weeklyFold_counts db wfail (getActiveLawyers db) (0, 0)
  exact ⟨by simpa [inactivityRun] using h1.1, by simpa [inactivityRun] using h1.2,
    by simpa [weeklyRun] using h2.1, by simpa [weeklyRun] using h2.2⟩

end LawFirm

namespace LawFirm

theorem stampInactivityNotification_mem (cases : List CaseRow) (cid now : Nat) :
    ∀ row ∈ stampInactivityNotification cases cid now,
      row.id = cid → row.last_inactivity_notification = some now := by
  intro row hrow hid
  rcases List.mem_map.mp hrow with ⟨a, _, hmap⟩
  by_cases h : a.id = cid
  · rw [← hmap]
    simp [h]
  · rw [← hmap] at hid
    simp only [h, if_false] at hid

theorem stampInactivityNotification_pres (cases : List CaseRow)
    (cid' now cid : Nat)
    (h : ∀ row ∈ cases, row.id = cid → row.last_inactivity_notification = some now) :
    ∀ row ∈ stampInactivityNotification cases cid' now,
      row.id = cid → row.last_inactivity_notification = some now := by
  intro row hrow hid
  rcases List.mem_map.mp hrow with ⟨a, ha, hmap⟩
  by_cases hc : a.id = cid'
  · rw [← hmap]
    simp [hc]
  · rw [← hmap] at hid ⊢
    simp only [hc, if_false] at hid ⊢
    exact h a ha hid

theorem bumpLastActivity_pres_lin (cases : List CaseRow) (cid' now' cid : Nat)
    (v : Option Nat)
    (h : ∀ row ∈ cases, row.id = cid → row.last_inactivity_notification = v) :
    ∀ row ∈ bumpLastActivity cases cid' now',
      row.id = cid → row.last_inactivity_notification = v := by
  intro row hrow hid
  rcases List.mem_map.mp hrow with ⟨a, ha, hmap⟩
  by_cases hc : a.id = cid'
  · rw [← hmap] at hid ⊢
    simp only [if_pos hc] at hid ⊢
    exact h a ha hid
  · rw [← hmap] at hid ⊢
    simp only [if_neg hc] at hid ⊢
    exact h a ha hid

theorem notificationCreate_cases (db : Db) (now newId userId : Nat)
    (ntype title message : String) (caseId : Option Nat) :
    (notificationService.create db now newId userId ntype title message caseId).2.cases =
      db.cases := rfl

theorem processInactiveCase_db1_cases (db : Db) (now newId : Nat) (c : CaseRow) :
    (match clientUserOf db c with
      | some u =>
        (notificationService.create db now newId u.id "system_alert"
          "Case Update Needed"
          ("Your case " ++ c.case_number ++ " has had no activity for " ++
            toString ((now - c.last_activity_at) / dayMs) ++
            " days. Please log in to review or contact your attorney.")
          (some c.id)).2
      | none => db).cases = db.cases := by
  cases clientUserOf db c <;> rfl

theorem processInactiveCase_stamps (db : Db) (now nid : Nat) (c : CaseRow) :
    ∀ row ∈ (processInactiveCase db now nid c none).1.cases,
      row.id = c.id → row.last_inactivity_notification = some now := by
  intro row hrow hid
  simp only [processInactiveCase] at hrow
  cases hcu : clientUserOf db c with
  | none =>
    rw [hcu] at hrow
    exact stampInactivityNotification_mem db.cases c.id now row hrow hid
  | some u =>
    rw [hcu] at hrow
    exact stampInactivityNotification_mem _ c.id now row hrow hid

theorem processInactiveCase_pres (db : Db) (now nid cid : Nat) (c' : CaseRow)
    (fl : Option ItemFail)
    (h : ∀ row ∈ db.cases, row.id = cid → row.last_inactivity_notification = some now) :
    ∀ row ∈ (processInactiveCase db now nid c' fl).1.cases,
      row.id = cid → row.last_inactivity_notification = some now := by
  intro row hrow hid
  match fl with
  | some ItemFail.atSend =>
    exact h row hrow hid
  | some ItemFail.atStamp =>
    simp only [processInactiveCase] at hrow
    cases hcu : clientUserOf db c' with
    | none => rw [hcu] at hrow; exact h row hrow hid
    | some u => rw [hcu] at hrow; exact h row hrow hid
  | none =>
    simp only [processInactiveCase] at hrow
    cases hcu : clientUserOf db c' with
    | none =>
      rw [hcu] at hrow
      exact stampInactivityNotification_pres db.cases c'.id now cid h row hrow hid
    | some u =>
      rw [hcu] at hrow
      exact stampInactivityNotification_pres _ c'.id now cid h row hrow hid

end LawFirm

namespace LawFirm

theorem inactivityFold_pres (now : Nat) (failOf : Nat → Option ItemFail)
    (idOf : Nat → Nat) (cid : Nat) :
    ∀ (l : List CaseRow) (acc : Db × Nat × Nat),
      (∀ row ∈ acc.1.cases, row.id = cid →
        row.last_inactivity_notification = some now) →
      ∀ row ∈ (inactivityFold now failOf idOf acc l).1.cases,
        row.id = cid → row.last_inactivity_notification = some now := by
  intro l
  induction l with
  | nil => intro acc hacc; exact hacc
  | cons c rest ih =>
    intro acc hacc
    simp only [inactivityFold]
    cases hok : (processInactiveCase acc.1 now (idOf c.id) c (failOf c.id)).2 with
    | true =>
      simp only [hok, if_true]
      exact ih _ (processInactiveCase_pres acc.1 now (idOf c.id) cid c
        (failOf c.id) hacc)
    | false =>
      simp only [hok, Bool.false_eq_true, if_false]
      exact ih _ (processInactiveCase_pres acc.1 now (idOf c.id) cid c
        (failOf c.id) hacc)

theorem inactivityFold_stamps (now : Nat) (failOf : Nat → Option ItemFail)
    (idOf : Nat → Nat) :
    ∀ (l : List CaseRow) (acc : Db × Nat × Nat) (c : CaseRow),
      c ∈ l → failOf c.id = none →
      ∀ row ∈ (inactivityFold now failOf idOf acc l).1.cases,
        row.id = c.id → row.last_inactivity_notification = some now := by
  intro l
  induction l with
  | nil => intro acc c hc; cases hc
  | cons y ys ih =>
    intro acc c hc hfl
    rcases List.mem_cons.mp hc with h | h
    · subst h
      simp only [inactivityFold, hfl]
      have hok := processInactiveCase_ok acc.1 now (idOf c.id) c none
      simp only [hok, Bool.false_eq_true, if_false]
      exact inactivityFold_pres now failOf idOf c.id ys _
        (processInactiveCase_stamps acc.1 now (idOf c.id) c)
    · simp only [inactivityFold]
      cases hok : (processInactiveCase acc.1 now (idOf y.id) y (failOf y.id)).2 with
      | true =>
        simp only [hok, if_true]
        exact ih _ c h hfl
      | false =>
        simp only [hok, Bool.false_eq_true, if_false]
        exact ih _ c h hfl

theorem processInactiveCase_notifications (db : Db) (now nid : Nat) (c : CaseRow)
    (fl : Option ItemFail) :
    ∀ n ∈ (processInactiveCase db now nid c fl).1.notifications,
      n ∈ db.notifications ∨ n.case_id = some c.id := by
  intro n hn
  match fl with
  | some ItemFail.atSend => exact Or.inl hn
  | some ItemFail.atStamp =>
    simp only [processInactiveCase] at hn
    cases hcu : clientUserOf db c with
    | none => rw [hcu] at hn; exact Or.inl hn
    | some u =>
      rw [hcu] at hn
      simp only [notificationService.create, List.mem_append,
        List.mem_singleton] at hn
      rcases hn with h | h
      · exact Or.inl h
      · right; rw [h]
  | none =>
    simp only [processInactiveCase] at hn
    cases hcu : clientUserOf db c with
    | none => rw [hcu] at hn; exact Or.inl hn
    | some u =>
      rw [hcu] at hn
      simp only [notificationService.create, List.mem_append,
        List.mem_singleton] at hn
      rcases hn with h | h
      · exact Or.inl h
      · right; rw [h]

theorem inactivityFold_notifications (now : Nat) (failOf : Nat → Option ItemFail)
    (idOf : Nat → Nat) :
    ∀ (l : List CaseRow) (acc : Db × Nat × Nat),
      ∀ n ∈ (inactivityFold now failOf idOf acc l).1.notifications,
        n ∈ acc.1.notifications ∨ ∃ c ∈ l, n.case_id = some c.id := by
  intro l
  induction l with
  | nil => intro acc n hn; exact Or.inl hn
  | cons c rest ih =>
    intro acc n hn
    simp only [inactivityFold] at hn
    cases hok : (processInactiveCase acc.1 now (idOf c.id) c (failOf c.id)).2 with
    | true =>
      rw [hok] at hn
      simp only [if_true] at hn
      rcases ih _ n hn with h | ⟨c', hc', hcid⟩
      · rcases processInactiveCase_notifications acc.1 now (idOf c.id) c
          (failOf c.id) n h with h2 | h2
        · exact Or.inl h2
        · exact Or.inr ⟨c, by simp, h2⟩
      · exact Or.inr ⟨c', by simp [hc'], hcid⟩
    | false =>
      rw [hok] at hn
      simp only [Bool.false_eq_true, if_false] at hn
      rcases ih _ n hn with h | ⟨c', hc', hcid⟩
      · rcases processInactiveCase_notifications acc.1 now (idOf c.id) c
          (failOf c.id) n h with h2 | h2
        · exact Or.inl h2
        · exact Or.inr ⟨c, by simp, h2⟩
      · exact Or.inr ⟨c', by simp [hc'], hcid⟩

end LawFirm

namespace LawFirm

theorem isInactiveCandidate_iff (now threshold : Nat) (c : CaseRow) :
    isInactiveCandidate now threshold c = true ↔
      (c.status ≠ CaseStatus.closed ∧ c.status ≠ CaseStatus.archived ∧
        c.status ≠ CaseStatus.resolved) ∧
      c.last_activity_at + threshold * dayMs < now ∧
      (c.last_inactivity_notification = none ∨
        ∃ t, c.last_inactivity_notification = some t ∧ t + 7 * dayMs < now) := by
  unfold isInactiveCandidate
  cases hlin : c.last_inactivity_notification with
  | none =>
    simp only [Bool.and_true, Bool.and_eq_true, Bool.not_eq_true',
      Bool.or_eq_false_iff, beq_eq_false_iff_ne, decide_eq_true_eq]
    constructor
    · rintro ⟨⟨⟨h1, h2⟩, h3⟩, h4⟩
      exact ⟨⟨h1, h2, h3⟩, h4, Or.inl trivial⟩
    · rintro ⟨⟨h1, h2, h3⟩, h4, _⟩
      exact ⟨⟨⟨h1, h2⟩, h3⟩, h4⟩
  | some t =>
    simp only [Bool.and_eq_true, Bool.not_eq_true', Bool.or_eq_false_iff,
      beq_eq_false_iff_ne, decide_eq_true_eq]
    constructor
    · rintro ⟨⟨⟨⟨h1, h2⟩, h3⟩, h4⟩, h5⟩
      exact ⟨⟨h1, h2, h3⟩, h4, Or.inr ⟨t, rfl, h5⟩⟩
    · rintro ⟨⟨h1, h2, h3⟩, h4, h5 | ⟨t', ht', h5⟩⟩
      · cases h5
      · cases ht'
        exact ⟨⟨⟨⟨h1, h2⟩, h3⟩, h4⟩, h5⟩

theorem throttle_blocks (now' threshold t : Nat) (c : CaseRow)
    (hlin : c.last_inactivity_notification = some t)
    (h7 : now' ≤ t + 7 * dayMs) :
    isInactiveCandidate now' threshold c = false := by
  unfold isInactiveCandidate
  rw [hlin]
  have : decide (t + 7 * dayMs < now') = false := by
    simp only [decide_eq_false_iff_not, not_lt]
    exact h7
  simp [this]

/-- C4: the inactivity scan selects exactly the open cases (status outside
closed/archived/resolved, with a resolvable client user) whose last activity
is older than the threshold and whose last inactivity notification is null or
older than 7 days; every selected case whose body does not throw before the
stamp (`failOf c.id = none` — the program's normal path, since the body's
closing `logInactivityEvent` INSERT always throws only AFTER the stamp has
landed) is stamped `last_inactivity_notification = now`; a stamped case is not
selected by any scan within the following 7 days; hence a second run inside
that window creates no additional notification for such a case. -/
theorem C4_inactivity_throttle_idempotent (db : Db) (now threshold : Nat)
    (failOf : Nat → Option ItemFail) (idOf : Nat → Nat) :
    (∀ c, c ∈ getInactiveCasesForNotification db now threshold ↔
      c ∈ db.cases ∧ (clientUserOf db c).isSome = true ∧
      (c.status ≠ CaseStatus.closed ∧ c.status ≠ CaseStatus.archived ∧
        c.status ≠ CaseStatus.resolved) ∧
      c.last_activity_at + threshold * dayMs < now ∧
      (c.last_inactivity_notification = none ∨
        ∃ t, c.last_inactivity_notification = some t ∧ t + 7 * dayMs < now)) ∧
    (∀ c ∈ getInactiveCasesForNotification db now threshold,
      failOf c.id = none →
      ∀ row ∈ (inactivityRun db now threshold failOf idOf).1.cases,
        row.id = c.id → row.last_inactivity_notification = some now) ∧
    (∀ (now' t : Nat) (c : CaseRow), c.last_inactivity_notification = some t →
      now' ≤ t + 7 * dayMs → isInactiveCandidate now' threshold c = false) ∧
    (∀ c ∈ getInactiveCasesForNotification db now threshold,
      failOf c.id = none →
      ∀ (now' : Nat) (failOf' : Nat → Option ItemFail) (idOf' : Nat → Nat),
        now' ≤ now + 7 * dayMs →
        ∀ n ∈ (inactivityRun (inactivityRun db now threshold failOf idOf).1
            now' threshold failOf' idOf').1.notifications,
          n ∈ (inactivityRun db now threshold failOf idOf).1.notifications ∨
            n.case_id ≠ some c.id) := by
  refine ⟨?_, ?_, ?_, ?_⟩
  · intro c
    simp only [getInactiveCasesForNotification, List.mem_filter,
      Bool.and_eq_true]
    rw [isInactiveCandidate_iff]
    tauto
  · intro c hc hfl
    exact inactivityFold_stamps now failOf idOf
      (getInactiveCasesForNotification db now threshold) (db, 0, 0) c hc hfl
  · intro now' t c hlin h7
    exact throttle_blocks now' threshold t c hlin h7
  · intro c hc hfl now' failOf' idOf' h7 n hn
    have hprov := inactivityFold_notifications now' failOf' idOf'
      (getInactiveCasesForNotification
        (inactivityRun db now threshold failOf idOf).1 now' threshold)
      ((inactivityRun db now threshold failOf idOf).1, 0, 0) n hn
    rcases hprov with h | ⟨c', hc', hcid⟩
    · exact Or.inl h
    · right
      intro hcontra
      rw [hcontra] at hcid
      have hcid' : c'.id = c.id := by
        simpa using hcid.symm
      have hc'mem := (List.mem_filter.mp hc').1
      have hc'cand := (List.mem_filter.mp hc').2
      have hstamp := inactivityFold_stamps now failOf idOf
        (getInactiveCasesForNotification db now threshold) (db, 0, 0) c hc hfl
        c' hc'mem hcid'
      have hblock := throttle_blocks now' threshold now c' hstamp h7
      simp only [Bool.and_eq_true] at hc'cand
      rw [hblock] at hc'cand
      exact absurd hc'cand.1 (by simp)

end LawFirm

namespace LawFirm

def c4Case : CaseRow :=
  { id := 1, case_number := "2025-PI-0001", client_id := 100, lawyer_id := none,
    title := "t", description := none, status := CaseStatus.active,
    priority := 3, case_type := none, closed_at := none, last_activity_at := 0,
    last_inactivity_notification := none, created_at := 0 }

def c4Db : Db :=
  { cases := [c4Case], case_events := [], notifications := [],
    clients := [{ id := 100, user_id := 10 }], lawyers := [],
    users := [{ id := 10, email := "ana@example.com", first_name := "Ana",
                last_name := "C", is_active := true }],
    case_number_seq := 0 }

def c4Now : Nat := 22 * dayMs

theorem C4_inactivity_throttle_idempotent_witness :
    c4Case ∈ getInactiveCasesForNotification c4Db c4Now 21 ∧
    (∀ row ∈ (inactivityRun c4Db c4Now 21 (fun _ => none) (fun _ => 1)).1.cases,
      row.id = c4Case.id → row.last_inactivity_notification = some c4Now) ∧
    (∀ n ∈ (inactivityRun
        (inactivityRun c4Db c4Now 21 (fun _ => none) (fun _ => 1)).1
        (c4Now + 2 * dayMs) 21 (fun _ => none) (fun _ => 2)).1.notifications,
      n ∈ (inactivityRun c4Db c4Now 21 (fun _ => none) (fun _ => 1)).1.notifications ∨
        n.case_id ≠ some c4Case.id) := by
  have hmem : c4Case ∈ getInactiveCasesForNotification c4Db c4Now 21 := by decide
  refine ⟨hmem, ?_, ?_⟩
  · exact (C4_inactivity_throttle_idempotent c4Db c4Now 21 (fun _ => none)
      (fun _ => 1)).2.1 c4Case hmem rfl
  · exact (C4_inactivity_throttle_idempotent c4Db c4Now 21 (fun _ => none)
      (fun _ => 1)).2.2.2 c4Case hmem rfl (c4Now + 2 * dayMs) (fun _ => none)
      (fun _ => 2) (by decide)

end LawFirm
